import Mathlib

/-!
# Verification of the license-plate-reader client frame pipeline

Shallow embedding of `examples/tensorflow/license-plate-reader/client/app.py`:
the frame segmenter / decimator (`DistributeFramesAndInfer.write`), the worker
pool shutdown protocol (`WorkerPool` / `DistributeFramesAndInfer.stop`), the
load shedder (`Flusher`, whose implementation lives in `workers.py` and is
modelled from the spec where noted), and `main`'s startup and teardown
sequences.

Bytes are modelled as `Nat`, byte strings as `List Nat`, and the
multiprocessing FIFO queues as Lean lists (head = oldest entry).
-/

namespace LPR

/-- A unit of work enqueued by `DistributeFramesAndInfer.write`: the dict
`{"frame_num": ..., "jpeg": ...}` put on `in_queue` (app.py lines 69-72). -/
structure FrameTask where
  frame_num : Nat
  jpeg : List Nat
  deriving Repr, DecidableEq

/-- State owned by `DistributeFramesAndInfer`: the decimation counter
`self.frame_num` and the work queue `self.in_queue` (app.py lines 57-58).
The queue is a FIFO list whose head is the oldest entry. -/
structure SegState where
  frame_num : Nat
  in_queue : List FrameTask
  deriving Repr, DecidableEq

/-- `DistributeFramesAndInfer.__init__` sets `frame_num = 0` and creates an
empty `in_queue` (app.py lines 57-58). -/
def segInit : SegState := { frame_num := 0, in_queue := [] }

/-- `buf.startswith(b"\xff\xd8")` (app.py line 66): the JPEG start-of-image
marker test. -/
def startswith (buf : List Nat) : Bool :=
  List.isPrefixOf [0xff, 0xd8] buf

/-- `DistributeFramesAndInfer.write(buf)` (app.py lines 65-73), for a
decimation factor `N` (`self.pick_every_nth_frame`): if the chunk starts with
the frame marker, enqueue `{frame_num, jpeg}` when `frame_num % N == 0`, then
increment `frame_num`; otherwise do nothing. -/
def write (N : Nat) (s : SegState) (buf : List Nat) : SegState :=
  if startswith buf then
    let s2 := if s.frame_num % N == 0 then
        { s with in_queue := s.in_queue ++ [{ frame_num := s.frame_num, jpeg := buf }] }
      else s
    { s2 with frame_num := s2.frame_num + 1 }
  else s

/-- Feeding a sequence of chunks to `write` in order. -/
def writeAll (N : Nat) (s : SegState) (bufs : List (List Nat)) : SegState :=
  bufs.foldl (write N) s

theorem writeAll_nil (N : Nat) (s : SegState) : writeAll N s [] = s := rfl

theorem writeAll_cons (N : Nat) (s : SegState) (b : List Nat) (bs : List (List Nat)) :
    writeAll N s (b :: bs) = writeAll N (write N s b) bs := rfl

theorem write_marker (N : Nat) (s : SegState) (buf : List Nat)
    (h : startswith buf = true) :
    write N s buf =
      { frame_num := s.frame_num + 1,
        in_queue :=
          if s.frame_num % N == 0 then
            s.in_queue ++ [{ frame_num := s.frame_num, jpeg := buf }]
          else s.in_queue } := by
  by_cases hm : s.frame_num % N == 0 <;> simp [write, h, hm]

theorem write_nonmarker (N : Nat) (s : SegState) (buf : List Nat)
    (h : startswith buf = false) :
    write N s buf = s := by
  simp [write, h]

/-- After feeding only marker-starting chunks from counter value `m` with an
already-accumulated queue `q`, the counter has advanced by the number of
chunks and the queue has gained exactly the tasks whose index is a multiple
of `N`, paired with their chunk, in order. -/
theorem writeAll_markers (N : Nat) :
    ∀ (bufs : List (List Nat)), (∀ b ∈ bufs, startswith b = true) →
    ∀ (m : Nat) (q : List FrameTask),
    writeAll N { frame_num := m, in_queue := q } bufs =
      { frame_num := m + bufs.length,
        in_queue := q ++
          ((bufs.zip (List.range' m bufs.length)).filterMap fun p =>
            if p.2 % N == 0 then some { frame_num := p.2, jpeg := p.1 } else none) } := by
  intro bufs
  induction bufs with
  | nil => intro _ m q; simp [writeAll]
  | cons b bs ih =>
      intro hall m q
      have hb : startswith b = true := hall b (by simp)
      have hbs : ∀ x ∈ bs, startswith x = true := fun x hx => hall x (by simp [hx])
      rw [writeAll_cons, write_marker N _ b hb]
      simp only [List.length_cons, List.range'_succ, List.zip_cons_cons,
        List.filterMap_cons]
      by_cases hm : m % N == 0
      · rw [if_pos hm, if_pos hm,
          ih hbs (m + 1) (q ++ [({ frame_num := m, jpeg := b } : FrameTask)])]
        simp [Nat.add_comm, Nat.add_assoc, Nat.add_left_comm]
      · rw [if_neg hm, if_neg hm, ih hbs (m + 1) q]
        simp [Nat.add_comm, Nat.add_assoc, Nat.add_left_comm]

/-- The sequence numbers of the tasks produced from marker chunks starting at
counter `m` are the indices in `[m, m + len)` that are multiples of `N`. -/
theorem filterMap_zip_range_map (N : Nat) :
    ∀ (bufs : List (List Nat)) (m : Nat),
    (((bufs.zip (List.range' m bufs.length)).filterMap fun p =>
        if p.2 % N == 0 then some { frame_num := p.2, jpeg := p.1 : FrameTask } else none).map
      FrameTask.frame_num)
      = (List.range' m bufs.length).filter (fun i => i % N == 0) := by
  intro bufs
  induction bufs with
  | nil => intro m; simp
  | cons b bs ih =>
      intro m
      simp only [List.length_cons, List.range'_succ, List.zip_cons_cons,
        List.filterMap_cons, List.filter_cons]
      by_cases hm : m % N == 0
      · rw [if_pos hm, if_pos hm, List.map_cons, ih (m + 1)]
      · rw [if_neg hm, if_neg hm, ih (m + 1)]

/-- C1. For every decimation factor `N ≥ 1` and every sequence of `K` chunks
each beginning with the frame-start marker fed to `write` from the initial
state, the work queue ends up holding exactly the tasks for the frames whose
observation index is a multiple of `N`, each carrying its chunk, in increasing
order of sequence number (the multiples of `N` among `0, ..., K-1`, in
order). -/
theorem c1_decimation (N K : Nat) (bufs : List (List Nat))
    (hN : 1 ≤ N) (hK : bufs.length = K)
    (hall : ∀ b ∈ bufs, startswith b = true) :
    (writeAll N segInit bufs).in_queue =
      ((bufs.zip (List.range K)).filterMap fun p =>
        if p.2 % N == 0 then some { frame_num := p.2, jpeg := p.1 } else none)
    ∧ (writeAll N segInit bufs).in_queue.map FrameTask.frame_num =
      (List.range K).filter (fun i => i % N == 0) := by
  have h0 := writeAll_markers N bufs hall 0 []
  have hrange : List.range K = List.range' 0 K := by
    rw [List.range_eq_range']
  subst hK
  constructor
  · show (writeAll N segInit bufs).in_queue = _
    rw [hrange]
    have : segInit = { frame_num := 0, in_queue := [] } := rfl
    rw [this, h0]
    simp
  · have : segInit = { frame_num := 0, in_queue := [] } := rfl
    rw [hrange, this, h0]
    simpa using filterMap_zip_range_map N bufs 0

/-- Witness for C1: with `N = 3` and 10 marker-starting chunks, exactly the
tasks with sequence numbers 0, 3, 6, 9 are enqueued, in that order. -/
theorem c1_decimation_witness :
    (1 ≤ 3 ∧ (List.replicate 10 [0xff, 0xd8]).length = 10
      ∧ ∀ b ∈ List.replicate 10 ([0xff, 0xd8] : List Nat), startswith b = true)
    ∧ (writeAll 3 segInit (List.replicate 10 [0xff, 0xd8])).in_queue.map
        FrameTask.frame_num = [0, 3, 6, 9] := by
  refine ⟨⟨by decide, by decide, by decide⟩, ?_⟩
  have h := (c1_decimation 3 10 (List.replicate 10 [0xff, 0xd8])
    (by decide) (by decide) (by decide)).2
  rw [h]
  decide

theorem write_frame_num (N : Nat) (s : SegState) (buf : List Nat) :
    (write N s buf).frame_num =
      if startswith buf then s.frame_num + 1 else s.frame_num := by
  by_cases h : startswith buf
  · by_cases hm : s.frame_num % N == 0 <;> simp [write, h, hm]
  · simp [write, h]

theorem writeAll_frame_num (N : Nat) :
    ∀ (bufs : List (List Nat)) (s : SegState),
    (writeAll N s bufs).frame_num =
      s.frame_num + (bufs.filter (fun b => startswith b)).length := by
  intro bufs
  induction bufs with
  | nil => intro s; simp [writeAll]
  | cons b bs ih =>
      intro s
      rw [writeAll_cons, ih, write_frame_num]
      by_cases h : startswith b <;> simp [List.filter_cons, h] <;> omega

/-- Invariant of the segmenter state: every enqueued sequence number is below
the current counter, and the enqueued sequence numbers are strictly
increasing in queue (enqueue) order. -/
def segInv (s : SegState) : Prop :=
  (∀ t ∈ s.in_queue, t.frame_num < s.frame_num) ∧
  List.Pairwise (· < ·) (s.in_queue.map FrameTask.frame_num)

theorem write_preserves_inv (N : Nat) (s : SegState) (buf : List Nat)
    (h : segInv s) : segInv (write N s buf) := by
  obtain ⟨h1, h2⟩ := h
  by_cases hb : startswith buf
  · rw [write_marker N s buf hb]
    by_cases hm : s.frame_num % N == 0
    · rw [if_pos hm]
      constructor
      · intro t ht
        simp only [List.mem_append, List.mem_singleton] at ht
        rcases ht with ht | ht
        · exact Nat.lt_succ_of_lt (h1 t ht)
        · subst ht; exact Nat.lt_succ_self _
      · simp only [List.map_append, List.map_cons, List.map_nil]
        rw [List.pairwise_append]
        refine ⟨h2, by simp, ?_⟩
        intro a ha y hy
        simp only [List.mem_singleton] at hy
        subst hy
        simp only [List.mem_map] at ha
        obtain ⟨t, ht, rfl⟩ := ha
        exact h1 t ht
    · rw [if_neg hm]
      exact ⟨fun t ht => Nat.lt_succ_of_lt (h1 t ht), h2⟩
  · rw [write_nonmarker N s buf (by simpa using hb)]
    exact ⟨h1, h2⟩

theorem writeAll_preserves_inv (N : Nat) :
    ∀ (bufs : List (List Nat)) (s : SegState),
    segInv s → segInv (writeAll N s bufs) := by
  intro bufs
  induction bufs with
  | nil => intro s h; exact h
  | cons b bs ih =>
      intro s h
      rw [writeAll_cons]
      exact ih (write N s b) (write_preserves_inv N s b h)

theorem segInit_inv : segInv segInit := by
  constructor <;> simp [segInit]

/-- C9. The decimation counter `frame_num` starts at 0, never decreases under
`write`, is incremented by exactly one for every marker-starting chunk and
untouched otherwise (so it is never reset: after any chunk sequence it equals
the number of frame starts observed), and the sequence numbers of the tasks
on the work queue are strictly increasing in enqueue order. -/
theorem c9_counter_monotone :
    segInit.frame_num = 0
    ∧ (∀ (N : Nat) (s : SegState) (buf : List Nat),
        s.frame_num ≤ (write N s buf).frame_num)
    ∧ (∀ (N : Nat) (s : SegState) (buf : List Nat),
        (write N s buf).frame_num =
          if startswith buf then s.frame_num + 1 else s.frame_num)
    ∧ (∀ (N : Nat) (bufs : List (List Nat)),
        (writeAll N segInit bufs).frame_num =
          (bufs.filter (fun b => startswith b)).length)
    ∧ (∀ (N : Nat) (bufs : List (List Nat)),
        List.Pairwise (· < ·)
          ((writeAll N segInit bufs).in_queue.map FrameTask.frame_num)) := by
  refine ⟨rfl, ?_, ?_, ?_, ?_⟩
  · intro N s buf
    rw [write_frame_num]
    split <;> omega
  · intro N s buf
    exact write_frame_num N s buf
  · intro N bufs
    rw [writeAll_frame_num]
    simp [segInit]
  · intro N bufs
    exact (writeAll_preserves_inv N bufs segInit segInit_inv).2

/-- C5 counterexample. Feeding the continuation chunk `[5, 6]` (no frame
marker) after a marker chunk leaves the segmenter state completely unchanged:
the bytes are not appended to any frame buffer (the code keeps none) — the
only enqueued payload is the marker chunk alone, not the marker chunk with
the continuation bytes appended, which is what the claim predicts. -/
theorem c5_counterexample :
    write 2 (write 2 segInit [0xff, 0xd8, 1]) [5, 6] = write 2 segInit [0xff, 0xd8, 1]
    ∧ (write 2 (write 2 segInit [0xff, 0xd8, 1]) [5, 6]).in_queue
        = [{ frame_num := 0, jpeg := [0xff, 0xd8, 1] }]
    ∧ ([0xff, 0xd8, 1] : List Nat) ≠ [0xff, 0xd8, 1] ++ [5, 6] := by
  decide

/-- C5 (amended). A chunk that does not begin with the frame-start marker
raises no error and is ignored entirely: `write` leaves the state unchanged
(the chunk is neither counted, nor decimated, nor retained — the code keeps
no per-frame buffer to append to). -/
theorem c5_nonmarker_ignored (N : Nat) (s : SegState) (buf : List Nat)
    (h : startswith buf = false) :
    write N s buf = s := by
  simp [write, h]

/-- Witness for C5 (amended): the chunk `[5, 6]` has no marker and leaves the
initial state unchanged. -/
theorem c5_nonmarker_ignored_witness :
    startswith [5, 6] = false ∧ write 3 segInit [5, 6] = segInit :=
  ⟨by decide, c5_nonmarker_ignored 3 segInit [5, 6] (by decide)⟩

/-- The `write` transition as claim C6 words it: on a frame start, FIRST
increment the DecimationCounter, THEN test `counter mod N == 0`, keeping the
frame (with the current, i.e. post-increment, counter as its sequence
number) when the test holds. Stated from the spec sentence only, for
comparison against the source's `write`. -/
def writeIncrementFirst (N : Nat) (s : SegState) (buf : List Nat) : SegState :=
  if startswith buf then
    let m := s.frame_num + 1
    if m % N == 0 then
      { frame_num := m, in_queue := s.in_queue ++ [{ frame_num := m, jpeg := buf }] }
    else { s with frame_num := m }
  else s

/-- C6 counterexample. On the very first frame with `N = 3`, the code
(`write`, which tests `frame_num % N == 0` before incrementing) enqueues a
task with sequence number 0, whereas the claim's increment-first transition
enqueues nothing (after incrementing, `1 % 3 ≠ 0`); the two transitions
disagree at this concrete input. -/
theorem c6_counterexample :
    (write 3 segInit [0xff, 0xd8]).in_queue.length = 1
    ∧ (writeIncrementFirst 3 segInit [0xff, 0xd8]).in_queue.length = 0
    ∧ writeIncrementFirst 3 segInit [0xff, 0xd8] ≠ write 3 segInit [0xff, 0xd8] := by
  decide

/-- C6 (amended). Every time a new frame begins, the segmenter FIRST tests
`frame_num mod N == 0` — enqueuing, when the test holds, a FrameTask carrying
the current (pre-increment) counter value and the frame bytes — and THEN
increments the DecimationCounter by one. -/
theorem c6_test_then_increment (N : Nat) (s : SegState) (buf : List Nat)
    (h : startswith buf = true) :
    (write N s buf).frame_num = s.frame_num + 1
    ∧ (write N s buf).in_queue =
        (if s.frame_num % N == 0 then
          s.in_queue ++ [{ frame_num := s.frame_num, jpeg := buf }]
        else s.in_queue) := by
  by_cases hm : s.frame_num % N == 0 <;> simp [write, h, hm]

/-- Witness for C6 (amended): the first marker chunk with `N = 2` is enqueued
with sequence number 0 and the counter moves to 1. -/
theorem c6_test_then_increment_witness :
    startswith [0xff, 0xd8, 9] = true
    ∧ ((write 2 segInit [0xff, 0xd8, 9]).frame_num = segInit.frame_num + 1
      ∧ (write 2 segInit [0xff, 0xd8, 9]).in_queue =
          (if segInit.frame_num % 2 == 0 then
            segInit.in_queue ++ [{ frame_num := segInit.frame_num, jpeg := [0xff, 0xd8, 9] }]
          else segInit.in_queue)) :=
  ⟨by decide, c6_test_then_increment 2 segInit [0xff, 0xd8, 9] (by decide)⟩

/-! ## Worker pool shutdown (`WorkerPool`, app.py lines 34-53, and
`DistributeFramesAndInfer.stop`, lines 75-79)

The pool runs as a separate process: `run` spawns `pool_size` workers, waits
for `event_stopper`, then joins every worker (lines 43-50); `stop` sets the
event (lines 52-53); `DistributeFramesAndInfer.stop` sets the event and then
joins the pool process (lines 75-77). We model the concurrent execution as an
interleaving of atomic actions over a shared state. -/

/-- Shared state of the pool subsystem. `stopEventSet` is
`WorkerPool.event_stopper`; `workersAlive` records which spawned workers have
not yet exited; `runReturned` holds once `WorkerPool.run` has joined every
worker and returned; `poolJoined` holds once `pool.join()` in
`DistributeFramesAndInfer.stop` has returned. Queues are FIFO lists (head =
oldest); a result is modelled as the task it came from, its payload being
opaque to the core. -/
structure PoolState where
  stopEventSet : Bool
  workersAlive : List Bool
  runReturned : Bool
  poolJoined : Bool
  workQueue : List FrameTask
  resultQueue : List FrameTask
  deriving Repr, DecidableEq

/-- Atomic actions of the pool subsystem's execution contexts. -/
inductive PAction where
  | setStopEvent
  | workerStep (i : Nat)
  | runFinish
  | joinPool
  deriving Repr, DecidableEq

/-- Modelled from the spec: `InferenceWorker` lives in `workers.py`, which is
not part of this snapshot; §4.2 gives each worker the loop
`pull task / exit if stop requested / push result`. One loop iteration of
worker `i`: a live worker that observes the stop event exits; otherwise it
pulls the oldest task, if any, and pushes the corresponding result. An index
outside the pool, or an exited worker, does nothing. -/
def workerStepFn (i : Nat) (s : PoolState) : PoolState :=
  if s.workersAlive.getD i false then
    if s.stopEventSet then
      { s with workersAlive := s.workersAlive.set i false }
    else
      match s.workQueue with
      | [] => s
      | t :: rest => { s with workQueue := rest, resultQueue := s.resultQueue ++ [t] }
  else s

/-- One interleaved step. `setStopEvent` is `WorkerPool.stop` (app.py lines
52-53). `runFinish` is the completion of `WorkerPool.run` (lines 47-50): the
wait loop ends only once the event is set, and the worker joins return only
once every worker has exited. `joinPool` is `pool.join()`
(line 77), which returns only once `run` has returned. Disabled actions
leave the state unchanged (they model blocking). -/
def pstep (a : PAction) (s : PoolState) : PoolState :=
  match a with
  | PAction.setStopEvent => { s with stopEventSet := true }
  | PAction.workerStep i => workerStepFn i s
  | PAction.runFinish =>
      if s.stopEventSet && s.workersAlive.all (fun b => !b) then
        { s with runReturned := true }
      else s
  | PAction.joinPool =>
      if s.runReturned then { s with poolJoined := true } else s

/-- Run a finite interleaving of pool actions. -/
def prun (acts : List PAction) (s : PoolState) : PoolState :=
  acts.foldl (fun t a => pstep a t) s

theorem prun_nil (s : PoolState) : prun [] s = s := rfl

theorem prun_cons (a : PAction) (acts : List PAction) (s : PoolState) :
    prun (a :: acts) s = prun acts (pstep a s) := rfl

/-- `WorkerPool.run` start (app.py lines 43-46): `n` live workers, nothing
stopped or joined, the work queue holding `q0`. -/
def poolStart (n : Nat) (q0 : List FrameTask) : PoolState :=
  { stopEventSet := false, workersAlive := List.replicate n true,
    runReturned := false, poolJoined := false, workQueue := q0, resultQueue := [] }

theorem getD_false_of_all_not :
    ∀ (l : List Bool) (i : Nat), l.all (fun b => !b) = true → l.getD i false = false := by
  intro l
  induction l with
  | nil => intro i _; cases i <;> rfl
  | cons b bs ih =>
      intro i h
      rw [List.all_cons, Bool.and_eq_true] at h
      cases i with
      | zero =>
          have : b = false := by simpa using h.1
          simpa using this
      | succ j => simpa using ih j h.2

/-- Join semantics invariant: `run` can only have returned once the stop event
is set and every worker has exited, and `pool.join()` can only have returned
once `run` has. -/
def poolInv (s : PoolState) : Prop :=
  (s.runReturned = true →
    s.stopEventSet = true ∧ s.workersAlive.all (fun b => !b) = true)
  ∧ (s.poolJoined = true → s.runReturned = true)

/-- A worker loop iteration never changes the stop event, the run-returned
flag or the pool-joined flag. -/
theorem workerStepFn_fields (i : Nat) (s : PoolState) :
    (workerStepFn i s).runReturned = s.runReturned
    ∧ (workerStepFn i s).poolJoined = s.poolJoined
    ∧ (workerStepFn i s).stopEventSet = s.stopEventSet := by
  unfold workerStepFn
  split
  · split
    · exact ⟨rfl, rfl, rfl⟩
    · split
      · exact ⟨rfl, rfl, rfl⟩
      · exact ⟨rfl, rfl, rfl⟩
  · exact ⟨rfl, rfl, rfl⟩

/-- With every worker exited, a worker loop iteration is a no-op. -/
theorem workerStepFn_all_dead (i : Nat) (s : PoolState)
    (h : s.workersAlive.all (fun b => !b) = true) :
    workerStepFn i s = s := by
  unfold workerStepFn
  rw [getD_false_of_all_not s.workersAlive i h]
  simp

theorem pstep_preserves_poolInv (a : PAction) (s : PoolState)
    (h : poolInv s) : poolInv (pstep a s) := by
  obtain ⟨h1, h2⟩ := h
  cases a with
  | setStopEvent =>
      refine ⟨fun hr => ⟨rfl, ?_⟩, fun hp => ?_⟩
      · exact (h1 hr).2
      · exact h2 hp
  | workerStep i =>
      show poolInv (workerStepFn i s)
      obtain ⟨f1, f2, f3⟩ := workerStepFn_fields i s
      refine ⟨fun hr => ?_, fun hp => ?_⟩
      · rw [f1] at hr
        have hall := (h1 hr).2
        rw [workerStepFn_all_dead i s hall]
        exact ⟨(h1 hr).1, hall⟩
      · rw [f2] at hp
        rw [f1]
        exact h2 hp
  | runFinish =>
      simp only [pstep]
      split
      · rename_i hg
        rw [Bool.and_eq_true] at hg
        exact ⟨fun _ => ⟨hg.1, hg.2⟩, fun _ => rfl⟩
      · exact ⟨h1, h2⟩
  | joinPool =>
      simp only [pstep]
      split
      · rename_i hr
        exact ⟨fun hrr => h1 hrr, fun _ => hr⟩
      · exact ⟨h1, h2⟩

theorem prun_preserves_poolInv :
    ∀ (acts : List PAction) (s : PoolState), poolInv s → poolInv (prun acts s) := by
  intro acts
  induction acts with
  | nil => intro s h; exact h
  | cons a rest ih =>
      intro s h
      rw [prun_cons]
      exact ih (pstep a s) (pstep_preserves_poolInv a s h)

theorem poolStart_poolInv (n : Nat) (q0 : List FrameTask) :
    poolInv (poolStart n q0) := by
  constructor <;> intro h <;> exact absurd h (by simp [poolStart])

/-- Once every worker has exited, no action revives a worker or touches
either queue. -/
theorem pstep_all_dead (a : PAction) (s : PoolState)
    (h : s.workersAlive.all (fun b => !b) = true) :
    (pstep a s).workersAlive = s.workersAlive
    ∧ (pstep a s).workQueue = s.workQueue
    ∧ (pstep a s).resultQueue = s.resultQueue := by
  cases a with
  | setStopEvent => exact ⟨rfl, rfl, rfl⟩
  | workerStep i =>
      simp only [pstep]
      rw [workerStepFn_all_dead i s h]
      exact ⟨rfl, rfl, rfl⟩
  | runFinish =>
      simp only [pstep]
      split
      · exact ⟨rfl, rfl, rfl⟩
      · exact ⟨rfl, rfl, rfl⟩
  | joinPool =>
      simp only [pstep]
      split
      · exact ⟨rfl, rfl, rfl⟩
      · exact ⟨rfl, rfl, rfl⟩

theorem prun_all_dead :
    ∀ (acts : List PAction) (s : PoolState),
    s.workersAlive.all (fun b => !b) = true →
    (prun acts s).workersAlive = s.workersAlive
    ∧ (prun acts s).workQueue = s.workQueue
    ∧ (prun acts s).resultQueue = s.resultQueue := by
  intro acts
  induction acts with
  | nil => intro s _; exact ⟨rfl, rfl, rfl⟩
  | cons a rest ih =>
      intro s h
      obtain ⟨hw, hq, hres⟩ := pstep_all_dead a s h
      have h2 : (pstep a s).workersAlive.all (fun b => !b) = true := by rw [hw]; exact h
      obtain ⟨iw, iq, ires⟩ := ih (pstep a s) h2
      rw [prun_cons]
      exact ⟨by rw [iw, hw], by rw [iq, hq], by rw [ires, hres]⟩

/-- C3. In every interleaved execution of the pool subsystem from a fresh
pool, once `stop()` has returned (the stop event was observed and
`pool.join()` — which waits for `run`, which in turn joins every spawned
worker — has returned, i.e. `poolJoined` holds), every worker has exited,
and over any further interleaving no worker pulls from the work queue and no
entry is ever pushed onto the result queue: both queues stay exactly as they
are. -/
theorem c3_stop_quiesces (n : Nat) (q0 : List FrameTask) (acts : List PAction)
    (hj : (prun acts (poolStart n q0)).poolJoined = true) :
    (prun acts (poolStart n q0)).workersAlive.all (fun b => !b) = true
    ∧ ∀ (more : List PAction),
        (prun more (prun acts (poolStart n q0))).workQueue =
          (prun acts (poolStart n q0)).workQueue
        ∧ (prun more (prun acts (poolStart n q0))).resultQueue =
          (prun acts (poolStart n q0)).resultQueue := by
  have hinv := prun_preserves_poolInv acts (poolStart n q0) (poolStart_poolInv n q0)
  have hdead := (hinv.1 (hinv.2 hj)).2
  refine ⟨hdead, fun more => ?_⟩
  obtain ⟨_, hq, hres⟩ := prun_all_dead more (prun acts (poolStart n q0)) hdead
  exact ⟨hq, hres⟩

/-- Witness for C3: one worker, stop requested, the worker observes the stop
event and exits, `run` joins it, `pool.join()` returns; afterwards every
worker has exited. -/
theorem c3_stop_quiesces_witness :
    (prun [PAction.setStopEvent, PAction.workerStep 0, PAction.runFinish,
        PAction.joinPool] (poolStart 1 [])).poolJoined = true
    ∧ (prun [PAction.setStopEvent, PAction.workerStep 0, PAction.runFinish,
        PAction.joinPool] (poolStart 1 [])).workersAlive.all (fun b => !b) = true :=
  ⟨by decide,
    (c3_stop_quiesces 1 [] [PAction.setStopEvent, PAction.workerStep 0,
      PAction.runFinish, PAction.joinPool] (by decide)).1⟩

/-- Flags mutated by `DistributeFramesAndInfer.stop` (app.py lines 75-79):
the pool's stop event, whether the pool process has been joined, and whether
`cancel_join_thread` has been called on each queue. Each underlying Python
operation (`Event.set`, `Process.join` on an already-exited process,
`Queue.cancel_join_thread`) returns without error when repeated and leaves
the same state. -/
structure StopFlags where
  eventSet : Bool
  poolJoined : Bool
  inQueueCJT : Bool
  outQueueCJT : Bool
  deriving Repr, DecidableEq

/-- `WorkerPool.stop` (app.py lines 52-53): set the stop event. -/
def workerPoolStopFn (f : StopFlags) : StopFlags :=
  { f with eventSet := true }

/-- `DistributeFramesAndInfer.stop` (app.py lines 75-79): `pool.stop()`, then
`pool.join()`, then `cancel_join_thread()` on both queues. -/
def distributeStopFn (f : StopFlags) : StopFlags :=
  let f1 := workerPoolStopFn f
  let f2 := { f1 with poolJoined := true }
  { f2 with inQueueCJT := true, outQueueCJT := true }

/-- C8. The stop transition is idempotent: applying
`DistributeFramesAndInfer.stop` (or `WorkerPool.stop`) twice yields exactly
the state of applying it once — the repeated `Event.set`, the repeated join
of the already-exited pool process, and the repeated `cancel_join_thread`
calls change nothing and raise nothing. The same holds step by step in the
interleaved pool model: setting the stop event and joining the pool are both
idempotent actions. -/
theorem c8_stop_idempotent :
    (∀ f : StopFlags, distributeStopFn (distributeStopFn f) = distributeStopFn f)
    ∧ (∀ f : StopFlags, workerPoolStopFn (workerPoolStopFn f) = workerPoolStopFn f)
    ∧ (∀ s : PoolState,
        pstep PAction.setStopEvent (pstep PAction.setStopEvent s) =
          pstep PAction.setStopEvent s)
    ∧ (∀ s : PoolState,
        pstep PAction.joinPool (pstep PAction.joinPool s) =
          pstep PAction.joinPool s) := by
  refine ⟨fun f => rfl, fun f => rfl, fun s => rfl, fun s => ?_⟩
  by_cases hr : s.runReturned <;> simp [pstep, hr]

/-! ## `main`'s teardown sequence (app.py lines 140-147) -/

/-- The externally visible teardown actions `main` performs after the stop
signal is observed. -/
inductive TEvent where
  | stopRecording (splitterPort : Nat)
  | setPoolStopEvent
  | joinPool
  | cancelJoinThread (queueIdx : Nat)
  | stopReassembler
  | stopFlusher
  deriving Repr, DecidableEq

/-- `WorkerPool.stop` (app.py lines 52-53) as a teardown trace. -/
def workerPoolStopTrace : List TEvent := [TEvent.setPoolStopEvent]

/-- `DistributeFramesAndInfer.stop` (app.py lines 75-79) as a teardown trace:
`pool.stop()`, `pool.join()`, then `cancel_join_thread()` on `in_queue` (0)
and `out_queue` (1). -/
def distributeStopTrace : List TEvent :=
  workerPoolStopTrace ++
    [TEvent.joinPool, TEvent.cancelJoinThread 0, TEvent.cancelJoinThread 1]

/-- The teardown `main` runs once `killer.kill_now` is observed (app.py lines
140-147): stop recording on splitter ports 0 and 1, `output.stop()`, then —
after leaving the camera block — `reassembler.stop()` and finally
`flusher.stop()`. -/
def mainTeardownTrace : List TEvent :=
  [TEvent.stopRecording 0, TEvent.stopRecording 1] ++ distributeStopTrace ++
    [TEvent.stopReassembler, TEvent.stopFlusher]

/-- C2 counterexample. The claim puts the Load Shedder's stop third and the
reassembler signal fourth, but in `main`'s teardown trace the reassembler is
stopped strictly before the flusher (`reassembler.stop()` on line 146
precedes `flusher.stop()` on line 147), so the flusher's stop does not
precede the reassembler's. -/
theorem c2_counterexample :
    ¬ (mainTeardownTrace.indexOf TEvent.stopFlusher <
        mainTeardownTrace.indexOf TEvent.stopReassembler)
    ∧ TEvent.stopFlusher ∈ mainTeardownTrace
    ∧ TEvent.stopReassembler ∈ mainTeardownTrace := by
  decide

/-- C2 (amended). On the stop signal, `main` tears down in strict order:
first it stops the capture/segmentation input (both recording ports, so no
new FrameTasks are created), second it stops the Worker Pool (setting the
stop event and joining the pool process, which blocks until all workers
exit), third it signals the external reassembler, and fourth it stops the
Load Shedder; each teardown event occurs exactly once. -/
theorem c2_teardown_order :
    mainTeardownTrace.indexOf (TEvent.stopRecording 0) <
      mainTeardownTrace.indexOf (TEvent.stopRecording 1)
    ∧ mainTeardownTrace.indexOf (TEvent.stopRecording 1) <
      mainTeardownTrace.indexOf TEvent.setPoolStopEvent
    ∧ mainTeardownTrace.indexOf TEvent.setPoolStopEvent <
      mainTeardownTrace.indexOf TEvent.joinPool
    ∧ mainTeardownTrace.indexOf TEvent.joinPool <
      mainTeardownTrace.indexOf TEvent.stopReassembler
    ∧ mainTeardownTrace.indexOf TEvent.stopReassembler <
      mainTeardownTrace.indexOf TEvent.stopFlusher
    ∧ mainTeardownTrace.count TEvent.setPoolStopEvent = 1
    ∧ mainTeardownTrace.count TEvent.joinPool = 1
    ∧ mainTeardownTrace.count TEvent.stopReassembler = 1
    ∧ mainTeardownTrace.count TEvent.stopFlusher = 1 := by
  decide

/-! ## Load shedding (`Flusher`, started in app.py lines 114-117) and its
interaction with teardown (lines 140-147)

The `Flusher` class itself lives in `workers.py`, which is not part of this
snapshot; its shedding behaviour is modelled from the spec (§4.3). -/

/-- Modelled from the spec: one shedding pass of the Flusher (`workers.py` is
not in the snapshot). §4.3: it samples the work-queue depth and, when the
depth exceeds the threshold, drains and discards entries — oldest (head)
first — until the depth is back at or below the threshold. -/
def flushOnce (threshold : Nat) (q : List FrameTask) : List FrameTask :=
  if threshold < q.length then q.drop (q.length - threshold) else q

/-- C4. When the work-queue depth exceeds the threshold `T` and no worker
consumes, one shedding pass brings the depth to exactly `T`, keeps a suffix
of the queue (the most recently enqueued tasks) and discards precisely the
oldest `depth - T` entries from the front. -/
theorem c4_shed_to_threshold (T : Nat) (q : List FrameTask) (h : T < q.length) :
    (flushOnce T q).length = T
    ∧ (flushOnce T q).isSuffixOf q = true
    ∧ flushOnce T q = q.drop (q.length - T) := by
  have hd : flushOnce T q = q.drop (q.length - T) := by simp [flushOnce, h]
  refine ⟨?_, ?_, hd⟩
  · rw [hd, List.length_drop]
    omega
  · rw [hd, List.isSuffixOf_iff_suffix]
    exact List.drop_suffix _ _

/-- Witness for C4: threshold 5, 20 enqueued tasks, workers paused — the
shedding pass leaves exactly the 5 most-recently-enqueued tasks
(sequence numbers 15..19). -/
theorem c4_shed_to_threshold_witness :
    5 < ((List.range 20).map fun i => ({ frame_num := i, jpeg := [] } : FrameTask)).length
    ∧ (flushOnce 5 ((List.range 20).map fun i =>
        ({ frame_num := i, jpeg := [] } : FrameTask))).length = 5
    ∧ flushOnce 5 ((List.range 20).map fun i =>
        ({ frame_num := i, jpeg := [] } : FrameTask)) =
      ((List.range 20).map fun i => ({ frame_num := i, jpeg := [] } : FrameTask)).drop 15 := by
  have h := c4_shed_to_threshold 5
    ((List.range 20).map fun i => ({ frame_num := i, jpeg := [] } : FrameTask))
    (by decide)
  exact ⟨by decide, h.1, by rw [h.2.2]; rfl⟩

/-- Joint state of `main`'s teardown thread and the running Flusher thread.
`mainPc` is `main`'s position in lines 142-147; `discardedAfterPoolStop`
records whether the Flusher has ever discarded a task after `output.stop()`
began. -/
structure TearState where
  mainPc : Nat
  poolStopRequested : Bool
  flusherStopRequested : Bool
  workQueue : List FrameTask
  discardedAfterPoolStop : Bool
  deriving Repr, DecidableEq

/-- One step of `main`'s teardown (app.py lines 142-147): pc 0-1 stop the
two recording ports, pc 2 is `output.stop()` (the pool's stop begins), pc 3
is `reassembler.stop()`, pc 4 is `flusher.stop()`; afterwards `main` is
done. -/
def mainTeardownStep (s : TearState) : TearState :=
  match s.mainPc with
  | 0 => { s with mainPc := 1 }
  | 1 => { s with mainPc := 2 }
  | 2 => { s with mainPc := 3, poolStopRequested := true }
  | 3 => { s with mainPc := 4 }
  | 4 => { s with mainPc := 5, flusherStopRequested := true }
  | _ => s

/-- Modelled from the spec: one sampling iteration of the Flusher thread
(`workers.py` is not in the snapshot; §4.3). Once its stop has been
requested the monitoring activity is over and it does nothing; otherwise,
when the sampled depth exceeds the threshold it sheds down to the threshold,
oldest first, and we record whether this discard happened after the pool's
stop began. -/
def flusherSampleStep (threshold : Nat) (s : TearState) : TearState :=
  if s.flusherStopRequested then s
  else if threshold < s.workQueue.length then
    { s with
        workQueue := flushOnce threshold s.workQueue,
        discardedAfterPoolStop := s.discardedAfterPoolStop || s.poolStopRequested }
  else s

/-- The two interleaved execution contexts during teardown. -/
inductive TActor where
  | mainThread
  | flusherThread
  deriving Repr, DecidableEq

/-- One interleaved step of the teardown phase. -/
def tearStep (threshold : Nat) (a : TActor) (s : TearState) : TearState :=
  match a with
  | TActor.mainThread => mainTeardownStep s
  | TActor.flusherThread => flusherSampleStep threshold s

/-- Run a finite interleaving of teardown steps. -/
def tearRun (threshold : Nat) (acts : List TActor) (s : TearState) : TearState :=
  acts.foldl (fun t a => tearStep threshold a t) s

/-- Teardown begins with `main` at line 142, neither stop requested and no
discard recorded. -/
def tearStart (q0 : List FrameTask) : TearState :=
  { mainPc := 0, poolStopRequested := false, flusherStopRequested := false,
    workQueue := q0, discardedAfterPoolStop := false }

/-- C7 counterexample. With threshold 0 and one task pending, the
interleaving in which `main` executes through `output.stop()` (three steps)
before the Flusher's next sample is a legal execution of the code — `main`
only requests the Flusher's stop at line 147, after the pool's stop — and in
it the Flusher discards a task after the pool's stop began. -/
theorem c7_counterexample :
    (tearRun 0 [TActor.mainThread, TActor.mainThread, TActor.mainThread,
        TActor.flusherThread]
      (tearStart [{ frame_num := 0, jpeg := [] }])).discardedAfterPoolStop = true
    ∧ (tearRun 0 [TActor.mainThread, TActor.mainThread, TActor.mainThread,
        TActor.flusherThread]
      (tearStart [{ frame_num := 0, jpeg := [] }])).workQueue = [] := by
  decide

theorem tearStep_after_flusher_stop (threshold : Nat) (a : TActor)
    (s : TearState) (h : s.flusherStopRequested = true) :
    (tearStep threshold a s).workQueue = s.workQueue
    ∧ (tearStep threshold a s).flusherStopRequested = true := by
  cases a with
  | mainThread =>
      show (mainTeardownStep s).workQueue = _ ∧ (mainTeardownStep s).flusherStopRequested = _
      unfold mainTeardownStep
      split <;> first
        | exact ⟨rfl, h⟩
        | exact ⟨rfl, rfl⟩
  | flusherThread =>
      show (flusherSampleStep threshold s).workQueue = _
        ∧ (flusherSampleStep threshold s).flusherStopRequested = _
      rw [flusherSampleStep, if_pos h]
      exact ⟨rfl, h⟩

/-- C7 (amended). Once the Load Shedder's own stop has been requested — which
in `main`'s teardown happens only at line 147, after the pool's stop and the
reassembler's stop — the Shedder never again discards a task: over any
further interleaving the work queue is unchanged. (Between the pool's stop
and `flusher.stop()` the Shedder can still discard, as `c7_counterexample`
shows.) -/
theorem c7_no_shed_after_flusher_stop (threshold : Nat) :
    ∀ (acts : List TActor) (s : TearState),
    s.flusherStopRequested = true →
    (tearRun threshold acts s).workQueue = s.workQueue := by
  intro acts
  induction acts with
  | nil => intro s _; rfl
  | cons a rest ih =>
      intro s h
      obtain ⟨hq, hf⟩ := tearStep_after_flusher_stop threshold a s h
      show (tearRun threshold rest (tearStep threshold a s)).workQueue = _
      rw [ih (tearStep threshold a s) hf, hq]

/-- Witness for C7 (amended): from a state in which the Flusher's stop has
been requested, running both threads once more leaves the queue untouched. -/
theorem c7_no_shed_after_flusher_stop_witness :
    ({ mainPc := 5, poolStopRequested := true, flusherStopRequested := true,
        workQueue := [{ frame_num := 7, jpeg := [] }],
        discardedAfterPoolStop := false } : TearState).flusherStopRequested = true
    ∧ (tearRun 0 [TActor.flusherThread, TActor.mainThread]
        { mainPc := 5, poolStopRequested := true, flusherStopRequested := true,
          workQueue := [{ frame_num := 7, jpeg := [] }],
          discardedAfterPoolStop := false }).workQueue =
      [{ frame_num := 7, jpeg := [] }] :=
  ⟨rfl, c7_no_shed_after_flusher_stop 0 [TActor.flusherThread, TActor.mainThread]
    { mainPc := 5, poolStopRequested := true, flusherStopRequested := true,
      workQueue := [{ frame_num := 7, jpeg := [] }],
      discardedAfterPoolStop := false } rfl⟩

/-! ## `main`'s startup (app.py lines 84-131) -/

/-- The configuration values `main` extracts from `config.json`
(app.py lines 98-102); only the fields the core uses are modelled. -/
structure AppConfig where
  workers : Nat
  pick_every_nth_frame : Nat
  frame_count_threshold : Nat
  deriving Repr, DecidableEq

/-- The components `main` starts, in program order (app.py lines 105-131),
and the critical log it emits when reading the configuration fails. -/
inductive StartupEffect where
  | logCritical
  | initWorkerPool (workers : Nat)
  | startReassembler
  | startFlusher (threshold : Nat)
  | startRecordingToDisk
  | startRecordingToQueue
  deriving Repr, DecidableEq

/-- `main`'s startup control flow (app.py lines 84-131): reading and parsing
`config.json` happens inside a `try` whose `except` logs the error and
returns at once (lines 87-93); only on success are the worker pool,
reassembler, flusher and the two camera recordings started, in that
order. -/
def mainStartup (cfgResult : Except String AppConfig) : List StartupEffect :=
  match cfgResult with
  | Except.error _ => [StartupEffect.logCritical]
  | Except.ok cfg =>
      [StartupEffect.initWorkerPool cfg.workers,
       StartupEffect.startReassembler,
       StartupEffect.startFlusher cfg.frame_count_threshold,
       StartupEffect.startRecordingToDisk,
       StartupEffect.startRecordingToQueue]

/-- C10. If opening, reading or parsing the configuration file fails, `main`
performs exactly one effect — logging the error — and returns: no worker
pool, no reassembler, no flusher and no camera recording is started
(startup is atomic with respect to configuration errors). -/
theorem c10_config_error_aborts :
    ∀ e : String, mainStartup (Except.error e) = [StartupEffect.logCritical] := by
  intro e
  rfl

end LPR
